import Mathlib

/-!
Verification of the URL-shortener core against its specification.

The definitions below are a shallow embedding of the Go sources:
  * `Base62`  embeds `internal/pkg/base62/base62.go`
  * `Keygen`  embeds `internal/pkg/keygen/snowflake.go`
  * `Service` embeds `internal/service/url_service.go`,
    `internal/repository/postgres.go` and the `domain` package.

Machine integers (`uint64`, `int64`) are embedded as `Nat` / `Int` with
explicit reduction modulo `2 ^ 64` where the Go code can overflow.
Wall-clock reads, store calls and cache calls are passed in as explicit
arguments, so every function is pure and executable.
-/

namespace Base62

/-- `Alphabet` from base62.go: digits, then upper case, then lower case. -/
def Alphabet : String := "0123456789ABCDEFGHIJKLMNOPQRSTUVWXYZabcdefghijklmnopqrstuvwxyz"

/-- `Base = 62`. -/
def Base : Nat := 62

/-- Modulus of Go's `uint64` arithmetic. -/
def uint64Mod : Nat := 2 ^ 64

/-- `Alphabet[i]` — byte indexing into the (all-ASCII) alphabet string.
Out-of-range indices never occur at call sites (`i = num % 62 < 62`). -/
def alphabetChar (i : Nat) : Char := Alphabet.data.getD i '0'

/-- First index of `c` in the list, if present.  This is the lookup
performed on Go's `alphabetIndex` map: `init` fills the map with the
index of every alphabet character (all characters are distinct, so
first index and map entry agree). -/
def indexIn : List Char → Char → Option Nat
  | [], _ => none
  | a :: rest, c => if a = c then some 0 else (indexIn rest c).map (· + 1)

/-- The `alphabetIndex` map lookup: `alphabetIndex[char]`. -/
def alphabetIndex (c : Char) : Option Nat := indexIn Alphabet.data c

/-- The `for num > 0` loop body of `Encode`, emitting base-62 digits
least-significant first.  The loop is embedded with explicit fuel; the
loop variable `num` strictly decreases (`num /= 62`), so `fuel = num`
at the top-level call is always enough. -/
def encodeDigitsAux : Nat → Nat → List Char
  | 0, _ => []
  | fuel + 1, num =>
    if num = 0 then []
    else alphabetChar (num % Base) :: encodeDigitsAux fuel (num / Base)

/-- The `reverse` helper of base62.go (rune-wise reversal). -/
def reverse (str : String) : String := String.mk str.data.reverse

/-- `Encode`: `"0"` for zero, otherwise the reversed digit string. -/
def encode (num : Nat) : String :=
  if num = 0 then String.mk [alphabetChar 0]
  else reverse (String.mk (encodeDigitsAux num num))

/-- `EncodePadded`: left-pad `Encode num` with the zero character of the
alphabet up to `minLength` (Go `int`, embedded as `Int`). -/
def encodePadded (num : Nat) (minLength : Int) : String :=
  let encoded := encode num
  if minLength ≤ (encoded.length : Int) then encoded
  else String.mk (List.replicate (minLength - (encoded.length : Int)).toNat (alphabetChar 0)) ++ encoded

/-- The `for _, char := range str` loop of `Decode`.  Per character the
Go code looks the character up in `alphabetIndex`, discards the looked-up
value, and then computes `results = results*Base + uint64(Base)`
(each `uint64` operation reduced mod `2^64`). -/
def decodeLoop : List Char → Nat → Except String Nat
  | [], results => .ok results
  | c :: rest, results =>
    match alphabetIndex c with
    | none => .error "invalid character in base62 string"
    | some _ => decodeLoop rest ((results * Base + Base) % uint64Mod)

/-- `Decode`: error on the empty string, otherwise run the character loop. -/
def decode (str : String) : Except String Nat :=
  if str.data.length = 0 then .error "empty string"
  else decodeLoop str.data 0

/-- Value `Decode` accumulates after processing `n` (valid) characters
starting from accumulator `acc`; it depends only on `n`. -/
def decodeValue : Nat → Nat → Nat
  | 0, acc => acc
  | n + 1, acc => decodeValue n ((acc * Base + Base) % uint64Mod)

lemma indexIn_isSome_iff_mem (l : List Char) (c : Char) :
    (indexIn l c).isSome = true ↔ c ∈ l := by
  induction l with
  | nil => simp [indexIn]
  | cons a rest ih =>
    by_cases h : a = c
    · simp [indexIn, h]
    · rw [indexIn, if_neg h]
      have hmap : ((indexIn rest c).map (· + 1)).isSome = (indexIn rest c).isSome := by
        cases indexIn rest c <;> rfl
      rw [hmap, ih, List.mem_cons]
      constructor
      · exact Or.inr
      · rintro (rfl | hm)
        · exact absurd rfl h
        · exact hm

lemma alphabetIndex_isSome_iff_mem (c : Char) :
    (alphabetIndex c).isSome = true ↔ c ∈ Alphabet.data :=
  indexIn_isSome_iff_mem _ _

lemma decodeLoop_ok_of_valid (l : List Char) (acc : Nat)
    (h : ∀ c ∈ l, c ∈ Alphabet.data) :
    decodeLoop l acc = .ok (decodeValue l.length acc) := by
  induction l generalizing acc with
  | nil => rfl
  | cons c rest ih =>
    have hc : c ∈ Alphabet.data := h c (List.mem_cons_self ..)
    have hs : (alphabetIndex c).isSome = true := (alphabetIndex_isSome_iff_mem c).mpr hc
    obtain ⟨i, hi⟩ := Option.isSome_iff_exists.mp hs
    simp only [decodeLoop, hi, List.length_cons, decodeValue]
    exact ih _ (fun d hd => h d (List.mem_cons_of_mem _ hd))

lemma decodeLoop_error_of_invalid (l : List Char) (acc : Nat)
    (h : ∃ c ∈ l, c ∉ Alphabet.data) :
    decodeLoop l acc = .error "invalid character in base62 string" := by
  induction l generalizing acc with
  | nil => obtain ⟨c, hc, _⟩ := h; exact absurd hc (List.not_mem_nil c)
  | cons c rest ih =>
    by_cases hc : c ∈ Alphabet.data
    · have hs : (alphabetIndex c).isSome = true := (alphabetIndex_isSome_iff_mem c).mpr hc
      obtain ⟨i, hi⟩ := Option.isSome_iff_exists.mp hs
      simp only [decodeLoop, hi]
      apply ih
      obtain ⟨d, hd, hdn⟩ := h
      rcases List.mem_cons.mp hd with rfl | hdr
      · exact absurd hc hdn
      · exact ⟨d, hdr, hdn⟩
    · have hs : (alphabetIndex c).isSome = false := by
        cases hn : (alphabetIndex c).isSome
        · rfl
        · exact absurd ((alphabetIndex_isSome_iff_mem c).mp hn) hc
      have : alphabetIndex c = none := Option.not_isSome_iff_eq_none.mp (by simp [hs])
      simp [decodeLoop, this]

lemma decodeLoop_ne_empty_error (l : List Char) (acc : Nat) :
    decodeLoop l acc ≠ .error "empty string" := by
  induction l generalizing acc with
  | nil => intro h; exact Except.noConfusion h
  | cons c rest ih =>
    intro h
    rcases hn : alphabetIndex c with _ | i
    · rw [decodeLoop, hn] at h
      have : "invalid character in base62 string" = "empty string" := Except.error.inj h
      exact absurd (congrArg String.length this) (by decide)
    · rw [decodeLoop, hn] at h
      exact ih _ h

/-- C1 (code bug): the decode loop ignores the looked-up digit value —
it always adds the constant `Base` — so `Decode` does not invert
`Encode`.  At the failing input `n = 0`: `Encode 0 = "0"` but
`Decode "0" = 62`, and `Decode (EncodePadded 0 6) = Decode "000000"`
is likewise not `0`. -/
theorem decode_encode_roundtrip_fails :
    encode 0 = "0" ∧ decode (encode 0) = .ok 62 ∧
    decode (encodePadded 0 6) = .ok 57731386986 := by
  refine ⟨rfl, rfl, rfl⟩

/-- C7: `Decode` fails with the empty-input error exactly on the empty
string, fails with the invalid-character error exactly when a non-empty
input contains a character outside the 62-character alphabet, and
succeeds in every other case. -/
theorem decode_error_cases (s : String) :
    (decode s = .error "empty string" ↔ s.data = []) ∧
    (decode s = .error "invalid character in base62 string" ↔
      s.data ≠ [] ∧ ∃ c ∈ s.data, c ∉ Alphabet.data) ∧
    ((∃ v, decode s = .ok v) ↔ s.data ≠ [] ∧ ∀ c ∈ s.data, c ∈ Alphabet.data) := by
  by_cases hs : s.data = []
  · refine ⟨?_, ?_, ?_⟩
    · simp [decode, hs]
    · constructor
      · intro h
        rw [decode, if_pos (by simp [hs])] at h
        have : "empty string" = "invalid character in base62 string" := Except.error.inj h
        exact absurd (congrArg String.length this) (by decide)
      · rintro ⟨hne, _⟩; exact absurd hs hne
    · constructor
      · rintro ⟨v, hv⟩
        rw [decode, if_pos (by simp [hs])] at hv
        exact Except.noConfusion hv
      · rintro ⟨hne, _⟩; exact absurd hs hne
  · have hlen : ¬ s.data.length = 0 := fun h => hs (List.length_eq_zero.mp h)
    have hdec : decode s = decodeLoop s.data 0 := by rw [decode, if_neg hlen]
    by_cases hv : ∀ c ∈ s.data, c ∈ Alphabet.data
    · have hok := decodeLoop_ok_of_valid s.data 0 hv
      refine ⟨?_, ?_, ?_⟩
      · rw [hdec, hok]
        constructor
        · intro h; exact Except.noConfusion h
        · intro h; exact absurd h hs
      · rw [hdec, hok]
        constructor
        · intro h; exact Except.noConfusion h
        · rintro ⟨_, c, hc, hcn⟩; exact absurd (hv c hc) hcn
      · rw [hdec, hok]
        exact ⟨fun _ => ⟨hs, hv⟩, fun _ => ⟨_, rfl⟩⟩
    · have hbad : ∃ c ∈ s.data, c ∉ Alphabet.data := by
        push_neg at hv; exact hv
      have herr := decodeLoop_error_of_invalid s.data 0 hbad
      refine ⟨?_, ?_, ?_⟩
      · rw [hdec, herr]
        constructor
        · intro h
          have : "invalid character in base62 string" = "empty string" := Except.error.inj h
          exact absurd (congrArg String.length this) (by decide)
        · intro h; exact absurd h hs
      · rw [hdec, herr]
        exact ⟨fun _ => ⟨hs, hbad⟩, fun _ => rfl⟩
      · rw [hdec, herr]
        constructor
        · rintro ⟨v, hv'⟩; exact Except.noConfusion hv'
        · rintro ⟨_, hall⟩
          obtain ⟨c, hc, hcn⟩ := hbad
          exact absurd (hall c hc) hcn

/-- Witness for `decode_error_cases` at concrete inputs. -/
theorem decode_error_cases_witness :
    (decode "" = .error "empty string" ↔ "".data = []) ∧
    (decode "!!" = .error "invalid character in base62 string" ↔
      "!!".data ≠ [] ∧ ∃ c ∈ "!!".data, c ∉ Alphabet.data) :=
  ⟨(decode_error_cases "").1, (decode_error_cases "!!").2.1⟩

/-- C9: the successful result of `Decode` depends only on the length of
its input — any two non-empty all-alphabet strings of equal length
decode to the same value (a consequence of the loop discarding the
looked-up digit). -/
theorem decode_depends_only_on_length (s₁ s₂ : String)
    (h₁ : s₁.data ≠ []) (h₂ : s₂.data ≠ [])
    (hv₁ : ∀ c ∈ s₁.data, c ∈ Alphabet.data)
    (hv₂ : ∀ c ∈ s₂.data, c ∈ Alphabet.data)
    (hlen : s₁.data.length = s₂.data.length) :
    decode s₁ = decode s₂ := by
  have e₁ : decode s₁ = decodeLoop s₁.data 0 := by
    rw [decode, if_neg (fun h => h₁ (List.length_eq_zero.mp h))]
  have e₂ : decode s₂ = decodeLoop s₂.data 0 := by
    rw [decode, if_neg (fun h => h₂ (List.length_eq_zero.mp h))]
  rw [e₁, e₂, decodeLoop_ok_of_valid s₁.data 0 hv₁, decodeLoop_ok_of_valid s₂.data 0 hv₂, hlen]

/-- Witness for `decode_depends_only_on_length`: two different strings
of the same length decode alike. -/
theorem decode_depends_only_on_length_witness : decode "AB" = decode "zz" :=
  decode_depends_only_on_length "AB" "zz" (by decide) (by decide)
    (by decide) (by decide) (by decide)

end Base62

namespace Keygen

/-- `EPoch = 1704067200000` (2024-01-01 in Unix milliseconds). -/
def ePoch : Int := 1704067200000

/-- `MachineIDBits = 10`. -/
def machineIDBits : Nat := 10

/-- `SequenceBits = 12`. -/
def sequenceBits : Nat := 12

/-- `MaxMachineID = (1 << MachineIDBits) - 1 = 1023`. -/
def maxMachineID : Int := 2 ^ machineIDBits - 1

/-- `MaxSequence = (1 << SequenceBits) - 1 = 4095`. -/
def maxSequence : Int := 2 ^ sequenceBits - 1

/-- `TimestampShift = MachineIDBits + SequenceBits = 22`. -/
def timestampShift : Nat := machineIDBits + sequenceBits

/-- `MachineIDShift = SequenceBits = 12`. -/
def machineIDShift : Nat := sequenceBits

/-- The `SnowFlakeGenerator` struct.  The mutex (`Generate` is verified as
the serialized critical section it guards) and the `customPattern` regex
(stored but never consulted by any function under verification) are
omitted. -/
structure SnowFlakeGenerator where
  machineID : Int
  sequence : Int
  lastTimestamp : Int
  minLength : Int
  maxLength : Int
deriving DecidableEq

/-- The keygen `Config` struct. -/
structure Config where
  machineID : Int
  minLength : Int
  maxLength : Int
deriving DecidableEq

/-- `NewSnowflakeGenerator`: reject machine ids outside `[0, MaxMachineID]`,
default `MinLength`/`MaxLength` of `0` to `6`/`10`, start with
`sequence = 0` and `lastTimestamp = -1`. -/
def newSnowflakeGenerator (cfg : Config) : Except String SnowFlakeGenerator :=
  if cfg.machineID < 0 ∨ cfg.machineID > maxMachineID then
    .error "machine ID must be between 0 and 1023"
  else
    let minLength := if cfg.minLength = 0 then 6 else cfg.minLength
    let maxLength := if cfg.maxLength = 0 then 10 else cfg.maxLength
    .ok { machineID := cfg.machineID, sequence := 0, lastTimestamp := -1,
          minLength := minLength, maxLength := maxLength }

/-- Go's `uint64(x)` conversion of an `int64` value: the low 64 bits
(two's complement), i.e. `x` reduced into `[0, 2^64)`. -/
def int64ToUInt64 (x : Int) : Nat := (x % (2 ^ 64 : Int)).toNat

/-- The packed id
`uint64(((timestamp-EPoch) << TimestampShift) | (machineID << MachineIDShift) | sequence)`.
An `int64` shift `x << k` equals `x * 2^k` reduced into 64 bits, and the
final `uint64` conversion (truncation to the low 64 bits) commutes with
the bitwise `|`, so the resulting `uint64` is obtained by reducing each
shifted field into `[0, 2^64)` and or-ing on `Nat`. -/
def packId (timestamp machineID sequence : Int) : Nat :=
  (int64ToUInt64 ((timestamp - ePoch) * 2 ^ timestampShift) |||
   int64ToUInt64 (machineID * 2 ^ machineIDShift)) |||
  int64ToUInt64 sequence

/-- Common tail of `Generate`: record `lastTimestamp = timestamp`, pack
the id from the current field values, Base62-encode it with the
configured minimum length.  Returns the updated generator state, the
packed id, and the short code. -/
def generateFinish (g : SnowFlakeGenerator) (timestamp sequence : Int) :
    SnowFlakeGenerator × Nat × String :=
  let id := packId timestamp g.machineID sequence
  ({ g with sequence := sequence, lastTimestamp := timestamp },
   id, Base62.encodePadded id g.minLength)

/-- `Generate`.  The wall-clock reads are explicit arguments: `timestamp`
is the value of `g.currentTimestamp()` and `tsWait` the value
`g.waitNextMillis(g.lastTimestamp)` would return (consulted only when
the sequence wraps to 0 during clock regression).  On clock regression
(`timestamp < lastTimestamp`) the sequence is advanced modulo 4096
(`& MaxSequence`); if it wrapped to 0 the code waits for the next
millisecond, otherwise it resets the sequence to 0. -/
def generate (g : SnowFlakeGenerator) (timestamp tsWait : Int) :
    SnowFlakeGenerator × Nat × String :=
  if timestamp < g.lastTimestamp then
    if Int.land (g.sequence + 1) maxSequence = 0 then
      generateFinish g tsWait (Int.land (g.sequence + 1) maxSequence)
    else
      generateFinish g timestamp 0
  else
    generateFinish g timestamp g.sequence

/-- A sequential run of `Generate` calls on one generator instance; each
list entry supplies the two clock reads of one call.  Returns the final
state and the packed ids in call order. -/
def generateRun (g : SnowFlakeGenerator) : List (Int × Int) → SnowFlakeGenerator × List Nat
  | [] => (g, [])
  | (ts, tw) :: rest =>
    let r := generate g ts tw
    let rr := generateRun r.1 rest
    (rr.1, r.2.1 :: rr.2)

lemma int64ToUInt64_mul_shift_mod (x : Int) (k : Nat) (h12 : 12 ≤ k) :
    int64ToUInt64 (x * 2 ^ k) % 2 ^ 12 = 0 := by
  have hdvd : ((2 : Int) ^ 12) ∣ x * 2 ^ k := by
    refine ⟨x * 2 ^ (k - 12), ?_⟩
    have hk : k = 12 + (k - 12) := by omega
    calc x * 2 ^ k = x * 2 ^ (12 + (k - 12)) := by rw [← hk]
    _ = 2 ^ 12 * (x * 2 ^ (k - 12)) := by rw [pow_add]; ring
  have hmod : (x * 2 ^ k) % (2 : Int) ^ 64 % (2 : Int) ^ 12 = 0 := by
    rw [Int.emod_emod_of_dvd _ (by norm_num : ((2 : Int) ^ 12) ∣ (2 : Int) ^ 64)]
    exact Int.emod_eq_zero_of_dvd hdvd
  have hnn : 0 ≤ (x * 2 ^ k) % (2 : Int) ^ 64 := Int.emod_nonneg _ (by norm_num)
  unfold int64ToUInt64
  have hcast : ((((x * 2 ^ k) % (2 : Int) ^ 64).toNat : Int)) % (2 : Int) ^ 12 = 0 := by
    rw [Int.toNat_of_nonneg hnn]
    exact hmod
  exact_mod_cast hcast

lemma lor_mod_two_pow {a b k : Nat} (ha : a % 2 ^ k = 0) (hb : b % 2 ^ k = 0) :
    (a ||| b) % 2 ^ k = 0 := by
  apply Nat.eq_of_testBit_eq
  intro i
  rw [Nat.zero_testBit, Nat.testBit_mod_two_pow, Nat.testBit_lor]
  by_cases hik : i < k
  · have hta : a.testBit i = false := by
      have := congrArg (fun n => Nat.testBit n i) ha
      simpa [Nat.testBit_mod_two_pow, hik] using this
    have htb : b.testBit i = false := by
      have := congrArg (fun n => Nat.testBit n i) hb
      simpa [Nat.testBit_mod_two_pow, hik] using this
    simp [hta, htb]
  · simp [hik]

lemma packId_mod_4096 (ts m : Int) : packId ts m 0 % 4096 = 0 := by
  have h0 : int64ToUInt64 0 = 0 := rfl
  unfold packId
  rw [h0]
  have h4096 : (4096 : Nat) = 2 ^ 12 := by norm_num
  rw [h4096]
  exact lor_mod_two_pow
    (lor_mod_two_pow
      (int64ToUInt64_mul_shift_mod _ _ (by norm_num [timestampShift, machineIDBits, sequenceBits]))
      (int64ToUInt64_mul_shift_mod _ _ (by norm_num [machineIDShift, sequenceBits])))
    (Nat.zero_mod _)

lemma generate_seq_zero (g : SnowFlakeGenerator) (ts tw : Int) (h : g.sequence = 0) :
    (generate g ts tw).1.sequence = 0 ∧ (generate g ts tw).2.1 % 4096 = 0 := by
  unfold generate
  by_cases hlt : ts < g.lastTimestamp
  · rw [if_pos hlt, h]
    rw [if_neg (by decide : ¬ Int.land (0 + 1) maxSequence = 0)]
    exact ⟨rfl, packId_mod_4096 _ _⟩
  · rw [if_neg hlt, h]
    exact ⟨rfl, packId_mod_4096 _ _⟩

lemma generateRun_invariant (clocks : List (Int × Int)) (g : SnowFlakeGenerator)
    (h : g.sequence = 0) :
    (generateRun g clocks).1.sequence = 0 ∧
      ∀ id ∈ (generateRun g clocks).2, id % 4096 = 0 := by
  induction clocks generalizing g with
  | nil => exact ⟨h, fun id hid => absurd hid (List.not_mem_nil _)⟩
  | cons p rest ih =>
    obtain ⟨ts, tw⟩ := p
    have step := generate_seq_zero g ts tw h
    have tail := ih (generate g ts tw).1 step.1
    refine ⟨tail.1, ?_⟩
    intro id hid
    rcases List.mem_cons.mp hid with rfl | hm
    · exact step.2
    · exact tail.2 id hm

/-- C10: the sequence counter starts at 0 and every path through
`Generate` leaves it at 0, so the low 12 bits (the sequence field) of
every packed id the generator ever emits are 0. -/
theorem generate_sequence_always_zero (cfg : Config) (g : SnowFlakeGenerator)
    (clocks : List (Int × Int)) (hg : newSnowflakeGenerator cfg = .ok g) :
    (generateRun g clocks).1.sequence = 0 ∧
      ∀ id ∈ (generateRun g clocks).2, id % 4096 = 0 := by
  have hseq : g.sequence = 0 := by
    unfold newSnowflakeGenerator at hg
    split_ifs at hg
    all_goals first
      | exact Except.noConfusion hg
      | rw [← Except.ok.inj hg]
  exact generateRun_invariant clocks g hseq

/-- Witness for `generate_sequence_always_zero` on a concrete run. -/
theorem generate_sequence_always_zero_witness :
    (generateRun ⟨1, 0, -1, 6, 10⟩ [(ePoch, 0), (ePoch + 2, 0)]).1.sequence = 0 ∧
      ∀ id ∈ (generateRun ⟨1, 0, -1, 6, 10⟩ [(ePoch, 0), (ePoch + 2, 0)]).2, id % 4096 = 0 :=
  generate_sequence_always_zero ⟨1, 0, 0⟩ ⟨1, 0, -1, 6, 10⟩ [(ePoch, 0), (ePoch + 2, 0)] rfl

/-- C8: generator construction fails with the invalid-machine-id error
exactly when the configured machine identifier is outside `[0, 1023]`. -/
theorem newSnowflakeGenerator_machineID_range (cfg : Config) :
    ((∃ g, newSnowflakeGenerator cfg = .ok g) ↔
      0 ≤ cfg.machineID ∧ cfg.machineID ≤ 1023) ∧
    ((cfg.machineID < 0 ∨ 1023 < cfg.machineID) →
      newSnowflakeGenerator cfg = .error "machine ID must be between 0 and 1023") := by
  have hmax : maxMachineID = 1023 := by norm_num [maxMachineID, machineIDBits]
  unfold newSnowflakeGenerator
  rw [hmax]
  by_cases h : cfg.machineID < 0 ∨ cfg.machineID > 1023
  · rw [if_pos h]
    refine ⟨⟨?_, ?_⟩, fun _ => rfl⟩
    · rintro ⟨g, hg⟩
      exact Except.noConfusion hg
    · rintro ⟨h0, h1⟩
      rcases h with h | h <;> omega
  · rw [if_neg h]
    push_neg at h
    exact ⟨⟨fun _ => ⟨h.1, h.2⟩, fun _ => ⟨_, rfl⟩⟩, fun hc => by rcases hc with hc | hc <;> omega⟩

/-- Witness for `newSnowflakeGenerator_machineID_range`: machine id 1024
is rejected, machine id 1023 is accepted. -/
theorem newSnowflakeGenerator_machineID_range_witness :
    newSnowflakeGenerator { machineID := 1024, minLength := 0, maxLength := 0 } =
      .error "machine ID must be between 0 and 1023" ∧
    (∃ g, newSnowflakeGenerator { machineID := 1023, minLength := 0, maxLength := 0 } = .ok g) :=
  ⟨(newSnowflakeGenerator_machineID_range _).2 (Or.inr (by norm_num)),
   (newSnowflakeGenerator_machineID_range _).1.mpr ⟨by norm_num, by norm_num⟩⟩

/-- C2 (code bug): `Generate` never advances the sequence counter on the
normal (non-regressed-clock) path, so two consecutive calls that observe
the same millisecond produce the *same* packed id instead of distinct,
strictly increasing ones.  Concretely: from a fresh generator with
machine id 1, two calls at millisecond `EPoch + 100` both pack to
`419434496`. -/
theorem generate_same_millis_duplicate :
    newSnowflakeGenerator ⟨1, 0, 0⟩ = .ok ⟨1, 0, -1, 6, 10⟩ ∧
    (generate ⟨1, 0, -1, 6, 10⟩ (ePoch + 100) 0).2.1 = 419434496 ∧
    (generate (generate ⟨1, 0, -1, 6, 10⟩ (ePoch + 100) 0).1 (ePoch + 100) 0).2.1 = 419434496 := by
  refine ⟨rfl, ?_, ?_⟩ <;> decide

end Keygen

namespace Service

/-- The `domain.URL` record.  Instants are embedded as `Int` (Unix
nanoseconds, Go `time.Time`); a `nil` expiration pointer is `none`. -/
structure URL where
  id : Int
  shortURL : String
  originalURL : String
  userID : Option String
  createdAt : Int
  updatedAt : Int
  expiresAt : Option Int
  clickCount : Int
  isActive : Bool
deriving DecidableEq

/-- `URL.IsExpired` from the domain package: `false` when there is no
expiration instant, otherwise `time.Now().After(*ExpiresAt)`, with the
wall clock `now` passed explicitly. -/
def isExpired (now : Int) (u : URL) : Bool :=
  match u.expiresAt with
  | none => false
  | some e => now > e

/-- `domain.CreateURLRequest`. -/
structure CreateURLRequest where
  originalURL : String
  customAlias : Option String
  expiresIn : Option Int
  userID : Option String
deriving DecidableEq

/-- `domain.CreateURLResponse`. -/
structure CreateURLResponse where
  shortCode : String
  shortURL : String
  originalURL : String
  expiresAt : Option Int
  createdAt : Int
deriving DecidableEq

/-- The `URLService` configuration fields consumed by `Create`/`GetURL`
(durations in nanoseconds, Go `time.Duration`). -/
structure URLService where
  baseURL : String
  defaultTTL : Int
  maxTTL : Int
  cacheTTL : Int
  allowCustom : Bool
deriving DecidableEq

/-- `time.Second` in nanoseconds. -/
def second : Int := 1000000000

/-- Go `int64` arithmetic wraps (two's complement): the value of an
`int64` expression is its mathematical value reduced into
`[-2^63, 2^63)`. -/
def wrap64 (x : Int) : Int := (x + 2 ^ 63) % 2 ^ 64 - 2 ^ 63

/-- `GetByShortCode` of postgres.go.  `queryResult` is the outcome of
the `db.GetContext` call (the row the SQL query restricts to active
records, or a database error such as not-found).  Database errors
propagate, an expired row is rejected with the expired error, a live
row is returned. -/
def getByShortCode (queryResult : Except String URL) (now : Int) : Except String URL :=
  match queryResult with
  | .error e => .error e
  | .ok url => if isExpired now url then .error "URL expired" else .ok url

/-- `Create` of url_service.go.  External effects are explicit inputs:
`genCode` is the short code returned by `keyGen.Generate()` (which never
returns an error — see `Keygen.generate`), `now` the wall clock,
`dbCreate` the error outcome of `urlRepo.Create` (`none` = success, and
the repository stamps `CreatedAt` with the current time), `cacheSet`
the error outcome of the write-through `cacheRepo.Set`. -/
def create (svc : URLService) (req : CreateURLRequest) (genCode : String)
    (now : Int) (dbCreate : Option String) (cacheSet : Option String) :
    Except String CreateURLResponse :=
  let shortCode :=
    match req.customAlias with
    | some a => if a ≠ "" then a else genCode
    | none => genCode
  let expiresAt : Option Int :=
    match req.expiresIn with
    | some e =>
      -- `ttl := time.Duration(*req.ExpiresIn) * time.Second` is an int64
      -- multiplication and wraps for e ≥ 2^63 / 10^9.
      if e > 0 then
        some (now + (if svc.maxTTL > 0 ∧ wrap64 (e * second) > svc.maxTTL then svc.maxTTL
                     else wrap64 (e * second)))
      else if svc.defaultTTL > 0 then some (now + svc.defaultTTL) else none
    | none => if svc.defaultTTL > 0 then some (now + svc.defaultTTL) else none
  match dbCreate with
  | some e => .error e
  | none =>
    match cacheSet with
    | some e => .error e
    | none =>
      .ok { shortCode := shortCode,
            shortURL := svc.baseURL ++ "/" ++ shortCode,
            originalURL := req.originalURL,
            expiresAt := expiresAt,
            createdAt := now }

/-- `GetURL` of url_service.go.  `cacheGet` is the outcome of
`cacheRepo.Get` (`.ok none` = miss, `.ok (some u)` = hit, `.error` = a
cache failure, which the code only logs, leaving the local `url` nil);
`dbQuery` is the row outcome consumed by `getByShortCode`; `cacheSet`
is the error outcome of the best-effort cache repopulation.  Returns
the call result and whether `cacheRepo.Delete` was invoked. -/
def getURL (cacheGet : Except String (Option URL)) (dbQuery : Except String URL)
    (cacheSet : Option String) (now : Int) : Except String URL × Bool :=
  let url : Option URL := match cacheGet with | .ok u => u | .error _ => none
  match url with
  | some u =>
    if isExpired now u then (.error "URL expired", true)
    else (.ok u, false)
  | none =>
    match getByShortCode dbQuery now with
    | .error e => (.error e, false)
    | .ok u => (.ok u, false)

/-- C3: a record past its expiration instant is never returned by
`GetURL`: any successful result is unexpired; a cache hit with an
expired record evicts the cache entry and fails with the expired error;
and on the cold path an expired durable row also fails with the expired
error. -/
theorem getURL_never_returns_expired (cacheGet : Except String (Option URL))
    (dbQuery : Except String URL) (cacheSet : Option String) (now : Int) :
    (∀ u, (getURL cacheGet dbQuery cacheSet now).1 = .ok u → isExpired now u = false) ∧
    (∀ u, cacheGet = .ok (some u) → isExpired now u = true →
      getURL cacheGet dbQuery cacheSet now = (.error "URL expired", true)) ∧
    (∀ u, (cacheGet = .ok none ∨ ∃ e, cacheGet = .error e) → dbQuery = .ok u →
      isExpired now u = true →
      (getURL cacheGet dbQuery cacheSet now).1 = .error "URL expired") := by
  refine ⟨?_, ?_, ?_⟩
  · intro u h
    rcases cacheGet with e | ou
    · rcases dbQuery with e' | v
      · simp [getURL, getByShortCode] at h
      · by_cases hexp : isExpired now v
        · simp [getURL, getByShortCode, hexp] at h
        · simp [getURL, getByShortCode, hexp] at h
          rw [← h]
          simpa using hexp
    · rcases ou with _ | v
      · rcases dbQuery with e' | v
        · simp [getURL, getByShortCode] at h
        · by_cases hexp : isExpired now v
          · simp [getURL, getByShortCode, hexp] at h
          · simp [getURL, getByShortCode, hexp] at h
            rw [← h]
            simpa using hexp
      · by_cases hexp : isExpired now v
        · simp [getURL, hexp] at h
        · simp [getURL, hexp] at h
          rw [← h]
          simpa using hexp
  · intro u hcg hexp
    rw [hcg]
    simp [getURL, hexp]
  · intro u hcg hdb hexp
    rcases hcg with hcg | ⟨e, hcg⟩ <;> rw [hcg, hdb] <;> simp [getURL, getByShortCode, hexp]

/-- Witness for `getURL_never_returns_expired`: a cache hit whose record
expired at instant 5, resolved at instant 10, is evicted and rejected. -/
theorem getURL_never_returns_expired_witness :
    getURL (.ok (some ⟨0, "c", "o", none, 0, 0, some 5, 0, true⟩)) (.error "not found") none 10 =
      (.error "URL expired", true) :=
  (getURL_never_returns_expired _ _ _ _).2.1 ⟨0, "c", "o", none, 0, 0, some 5, 0, true⟩ rfl rfl

/-- C5: cache-error handling is asymmetric between the two paths: on the
read path a cache-get error yields the same result as a cache miss, and
a failed best-effort repopulation yields the same result as a healthy
one (neither is returned to the caller); on the write path a failed
write-through cache set after a successful durable insert is returned
as a hard error. -/
theorem cache_error_asymmetry :
    (∀ (e : String) (dbQuery : Except String URL) (cacheSet : Option String) (now : Int),
      (getURL (.error e) dbQuery cacheSet now).1 = (getURL (.ok none) dbQuery cacheSet now).1) ∧
    (∀ (cacheGet : Except String (Option URL)) (dbQuery : Except String URL) (e : String)
        (now : Int),
      (getURL cacheGet dbQuery (some e) now).1 = (getURL cacheGet dbQuery none now).1) ∧
    (∀ (svc : URLService) (req : CreateURLRequest) (genCode : String) (now : Int) (e : String),
      create svc req genCode now none (some e) = .error e) :=
  ⟨fun _ _ _ _ => rfl, fun _ _ _ _ => rfl, fun _ _ _ _ _ => rfl⟩

/-- C4 counterexample: with custom aliases disallowed by configuration
(`allowCustom = false`) and a non-empty alias supplied, `Create` still
uses the alias verbatim instead of calling the id generator — the
`allowCustom` flag is never consulted. -/
theorem create_uses_alias_when_disallowed :
    (create ⟨"http://sho.rt", 0, 0, 0, false⟩ ⟨"http://example.com", some "myalias", none, none⟩
        "A1B2C3" 0 none none).map (fun r => r.shortCode) = .ok "myalias" ∧
    "myalias" ≠ "A1B2C3" :=
  ⟨rfl, by decide⟩

/-- C4 amended: the short code is the supplied custom alias verbatim
whenever a non-empty alias is supplied — regardless of the
configuration's `allowCustom` flag — and is the id generator's code
exactly when no alias or an empty alias is supplied. -/
theorem create_shortCode_selection (svc : URLService) (req : CreateURLRequest)
    (genCode : String) (now : Int) (dbCreate cacheSet : Option String)
    (resp : CreateURLResponse)
    (h : create svc req genCode now dbCreate cacheSet = .ok resp) :
    (∀ a, req.customAlias = some a → a ≠ "" → resp.shortCode = a) ∧
    ((req.customAlias = none ∨ req.customAlias = some "") → resp.shortCode = genCode) := by
  rcases dbCreate with _ | e
  · rcases cacheSet with _ | e
    · have hr := Except.ok.inj h
      constructor
      · intro a ha hne
        rw [← hr]
        show (match req.customAlias with
              | some a' => if a' ≠ "" then a' else genCode
              | none => genCode) = a
        rw [ha]
        exact if_pos hne
      · intro hcase
        rw [← hr]
        show (match req.customAlias with
              | some a' => if a' ≠ "" then a' else genCode
              | none => genCode) = genCode
        rcases hcase with hc | hc <;> rw [hc]
        simp
    · exact Except.noConfusion h
  · exact Except.noConfusion h

/-- Witness for `create_shortCode_selection` at a concrete request with
a non-empty alias. -/
theorem create_shortCode_selection_witness :
    ({ shortCode := "abc", shortURL := "b/abc", originalURL := "u",
       expiresAt := none, createdAt := 0 } : CreateURLResponse).shortCode = "abc" :=
  (create_shortCode_selection ⟨"b", 0, 0, 0, true⟩ ⟨"u", some "abc", none, none⟩ "GEN" 0
    none none ⟨"abc", "b/abc", "u", none, 0⟩ rfl).1 "abc" rfl (by decide)

lemma wrap64_eq_of_lt {x : Int} (h0 : 0 ≤ x) (h : x < 2 ^ 63) : wrap64 x = x := by
  unfold wrap64
  have h63 : (2 : Int) ^ 63 = 9223372036854775808 := by norm_num
  have h64 : (2 : Int) ^ 64 = 18446744073709551616 := by norm_num
  rw [h63, h64]
  rw [h63] at h
  omega

/-- C6 counterexample: the requested lifetime is multiplied into
nanoseconds in `int64` arithmetic, which wraps for
`expiresIn ≥ 2^63 / 10^9 ≈ 9.22e9` seconds.  With `expiresIn = 10^10`
and `maxTTL = 5 s` the wrapped ttl is negative, the clamp never fires,
and the stored expiration instant is `now - 8446744073709551616 ns` —
a far-past instant, not `now + maxTTL` as the claim requires. -/
theorem create_expiresAt_overflow_counterexample :
    (create ⟨"b", 0, 5000000000, 0, true⟩ ⟨"u", none, some 10000000000, none⟩ "GEN" 0
        none none).map (fun r => r.expiresAt) = .ok (some (-8446744073709551616)) ∧
    (-8446744073709551616 : Int) ≠ 0 + min (10000000000 * second) 5000000000 :=
  ⟨rfl, by decide⟩

/-- C6 amended: expiration determination in `Create`: a positive
requested lifetime (in seconds) whose nanosecond value fits in a signed
64-bit integer is clamped to the configured maximum lifetime when one
is configured and added to `now`; with no requested lifetime the
configured default lifetime applies when positive; with neither, the
record has no expiration instant.  (Beyond `2^63` nanoseconds the
`int64` multiplication wraps and the stored instant is the wrapped
value — see `create_expiresAt_overflow_counterexample`.) -/
theorem create_expiresAt_amended (svc : URLService) (req : CreateURLRequest)
    (genCode : String) (now : Int) (dbCreate cacheSet : Option String)
    (resp : CreateURLResponse)
    (h : create svc req genCode now dbCreate cacheSet = .ok resp) :
    (∀ e, req.expiresIn = some e → 0 < e → e * second < 2 ^ 63 → 0 < svc.maxTTL →
      resp.expiresAt = some (now + min (e * second) svc.maxTTL)) ∧
    (∀ e, req.expiresIn = some e → 0 < e → e * second < 2 ^ 63 → svc.maxTTL ≤ 0 →
      resp.expiresAt = some (now + e * second)) ∧
    (req.expiresIn = none → 0 < svc.defaultTTL →
      resp.expiresAt = some (now + svc.defaultTTL)) ∧
    (req.expiresIn = none → svc.defaultTTL ≤ 0 → resp.expiresAt = none) := by
  rcases dbCreate with _ | e
  · rcases cacheSet with _ | e
    · have hr := Except.ok.inj h
      have hshow : resp.expiresAt =
          (match req.expiresIn with
           | some e =>
             if e > 0 then
               some (now + (if svc.maxTTL > 0 ∧ wrap64 (e * second) > svc.maxTTL then svc.maxTTL
                            else wrap64 (e * second)))
             else if svc.defaultTTL > 0 then some (now + svc.defaultTTL) else none
           | none => if svc.defaultTTL > 0 then some (now + svc.defaultTTL) else none) := by
        rw [← hr]
      have hsec : second = 1000000000 := rfl
      refine ⟨?_, ?_, ?_, ?_⟩
      · intro e he hpos hfit hmax
        have hw : wrap64 (e * second) = e * second :=
          wrap64_eq_of_lt (by rw [hsec]; omega) hfit
        simp only [hshow, he]
        rw [if_pos hpos, hw]
        congr 1
        split_ifs with hc
        · rcases hc with ⟨_, hgt⟩
          rw [hsec] at hgt ⊢
          omega
        · rw [not_and_or] at hc
          rcases hc with hc | hc
          · exact absurd hmax hc
          · rw [hsec] at hc ⊢
            omega
      · intro e he hpos hfit hmax
        have hw : wrap64 (e * second) = e * second :=
          wrap64_eq_of_lt (by rw [hsec]; omega) hfit
        simp only [hshow, he]
        rw [if_pos hpos, hw, if_neg (by omega : ¬ (svc.maxTTL > 0 ∧ e * second > svc.maxTTL))]
      · intro he hdef
        simp only [hshow, he]
        rw [if_pos hdef]
      · intro he hdef
        simp only [hshow, he]
        rw [if_neg (by omega : ¬ svc.defaultTTL > 0)]
    · exact Except.noConfusion h
  · exact Except.noConfusion h

/-- Witness for `create_expiresAt_amended`: the spec scenario
`expiresIn = 10 s`, `maxTTL = 5 s` stores `now + 5 s`. -/
theorem create_expiresAt_amended_witness :
    ({ shortCode := "GEN", shortURL := "b/GEN", originalURL := "u",
       expiresAt := some 5000000000, createdAt := 0 } : CreateURLResponse).expiresAt =
      some (0 + min (10 * second) 5000000000) :=
  (create_expiresAt_amended ⟨"b", 0, 5000000000, 0, true⟩ ⟨"u", none, some 10, none⟩ "GEN" 0
    none none ⟨"GEN", "b/GEN", "u", some 5000000000, 0⟩ rfl).1 10 rfl (by decide) (by decide)
    (by decide)

end Service
